import Mathlib

/-!
Verification of the graph layout engine of the mappo repository.

The development shallowly embeds the data model and the subgraph-filter,
position-continuity, render-cache-sweep, pinning/drag, viewport-clamp and
cooling-schedule logic of `src/components/GraphVisualization/ForceGraph.tsx`
(the main 2D view), `src/components/GraphVisualization/ForceGraph3D.tsx`
(the 3D view) and the legacy 2D variant, and proves or refutes the spec's
claims about them.  Coordinates and opacities are rationals; JavaScript
`undefined`/`null` becomes `Option`; JavaScript truthiness checks are kept
where the source relies on them.
-/

/-- Entity categories, from `src/types/index.ts`. -/
inductive EntityType where
  | person | organization | event | location
deriving DecidableEq, Repr

/-- Relationship categories, from `src/types/index.ts`. -/
inductive RelationshipType where
  | family | professional | social | political | conflict | cultural
deriving DecidableEq, Repr

/-- A raw entity record (the fields the filter logic consults). -/
structure Entity where
  id : String
  name : String
  etype : EntityType
  startDate : Option String := none
  endDate : Option String := none
deriving DecidableEq, Repr

/-- A raw relationship record with normalized endpoint ids. -/
structure Relationship where
  id : String
  source : String
  target : String
  rtype : RelationshipType
  strength : Option ℚ := none
deriving DecidableEq, Repr

/-- The immutable graph value handed to the views. -/
structure GraphData where
  nodes : List Entity
  links : List Relationship
deriving DecidableEq, Repr

/-- The UI filter configuration (the fields the filter logic consults). -/
structure FilterState where
  entityTypes : EntityType → Bool
  relationshipTypes : RelationshipType → Bool
  timeRange : ℤ × ℤ

/-- Decimal value of the leading digit run of a character list; `none` when the
first character is not a digit (JavaScript `parseInt` returning `NaN`). -/
def leadingDigitsNat (cs : List Char) : Option ℕ :=
  let ds := cs.takeWhile Char.isDigit
  if ds.isEmpty then none
  else some (ds.foldl (fun a c => a * 10 + (c.toNat - 48)) 0)

/-- JavaScript `parseInt(s)`: skip blanks, optional sign, leading digit run;
`none` models `NaN`. -/
def parseIntJS (s : String) : Option ℤ :=
  let cs := s.data.dropWhile (· = ' ')
  match cs with
  | '-' :: rest => (leadingDigitsNat rest).map (fun n => -(n : ℤ))
  | '+' :: rest => (leadingDigitsNat rest).map (fun n => (n : ℤ))
  | _ => (leadingDigitsNat cs).map (fun n => (n : ℤ))

/-- JavaScript `s.split('-')` on the character list: the list of groups between `'-'`
separators.  Always non-empty. -/
def splitDash : List Char → List (List Char)
  | [] => [[]]
  | c :: rest =>
    match splitDash rest with
    | [] => [[]]
    | g :: gs => if c = '-' then [] :: g :: gs else (c :: g) :: gs

/-- JavaScript `key.split('-')[0]` as a string (the first dash-separated group). -/
def firstDashGroup (s : String) : String :=
  String.mk ((splitDash s.data).headD [])

/-- Node predicate of the 2D `filteredData` memo (`ForceGraph.tsx`): the
entity type must be enabled, and when a `startDate` is present the year
parsed from its first dash-separated component must fall in `timeRange`
(a `NaN` year fails both comparisons). -/
def nodeVisible2D (f : FilterState) (n : Entity) : Bool :=
  f.entityTypes n.etype &&
    (match n.startDate with
     | none => true
     | some s =>
       match parseIntJS (firstDashGroup s) with
       | none => false
       | some y => decide (f.timeRange.1 ≤ y) && decide (y ≤ f.timeRange.2))

/-- The 2D visible subgraph (`filteredData` in `ForceGraph.tsx`): filtered
nodes, then every link whose two endpoint ids are both visible — the
relationship-type toggles are deliberately not consulted. -/
def filteredData2D (d : GraphData) (f : FilterState) : GraphData :=
  let ns := d.nodes.filter (nodeVisible2D f)
  let ids := ns.map Entity.id
  { nodes := ns
    links := d.links.filter (fun l => ids.contains l.source && ids.contains l.target) }

/-- Node predicate of the 3D `filteredData` memo (`ForceGraph3D.tsx`): only
the entity-type toggles are consulted. -/
def nodeVisible3D (f : FilterState) (n : Entity) : Bool :=
  f.entityTypes n.etype

/-- Relationship-type test of the 3D link filter: each of the five named
categories is checked against its toggle; `cultural` is never checked and
therefore always passes. -/
def relEnabled3D (f : FilterState) (t : RelationshipType) : Bool :=
  match t with
  | .family => f.relationshipTypes .family
  | .professional => f.relationshipTypes .professional
  | .social => f.relationshipTypes .social
  | .political => f.relationshipTypes .political
  | .conflict => f.relationshipTypes .conflict
  | .cultural => true

/-- The 3D visible subgraph (`filteredData` in `ForceGraph3D.tsx`): filtered
nodes, then links whose endpoints are both visible and whose relationship
category passes the toggle test. -/
def filteredData3D (d : GraphData) (f : FilterState) : GraphData :=
  let ns := d.nodes.filter (nodeVisible3D f)
  let ids := ns.map Entity.id
  { nodes := ns
    links := d.links.filter (fun l =>
      ids.contains l.source && ids.contains l.target && relEnabled3D f l.rtype) }

/-- An id is in the 2D visible node set. -/
def visibleId2D (d : GraphData) (f : FilterState) (i : String) : Bool :=
  ((filteredData2D d f).nodes.map Entity.id).contains i

/-- An id is in the 3D visible node set. -/
def visibleId3D (d : GraphData) (f : FilterState) (i : String) : Bool :=
  ((filteredData3D d f).nodes.map Entity.id).contains i

/-- Mutable per-node simulation state carried by the 2D view (`GraphNode`
with d3's `x/y/vx/vy/fx/fy`); `none` models `undefined`/`null`. -/
structure SimNode where
  id : String
  x : Option ℚ := none
  y : Option ℚ := none
  vx : Option ℚ := none
  vy : Option ℚ := none
  fx : Option ℚ := none
  fy : Option ℚ := none
deriving DecidableEq, Repr

/-- One captured position entry (`{x, y, vx, vy}` in the position map). -/
structure CachedPos where
  x : ℚ
  y : ℚ
  vx : ℚ
  vy : ℚ
deriving DecidableEq, Repr

/-- One step of building the position map of the 2D continuity effect:
record `x, y, vx or 0, vy or 0` under the node's id, skipping nodes with a
falsy id or an undefined coordinate; an entry for an id already present
overwrites it (`Map.set`). -/
def pmStep (m : String → Option CachedPos) (n : SimNode) :
    String → Option CachedPos :=
  if n.id ≠ "" ∧ n.x.isSome ∧ n.y.isSome then
    fun k => if k = n.id then
      some ⟨n.x.getD 0, n.y.getD 0, n.vx.getD 0, n.vy.getD 0⟩
    else m k
  else m

/-- The position map of the 2D continuity effect, built by folding
`pmStep` over the previous node list starting from the empty map. -/
def positionMap (prev : List SimNode) : String → Option CachedPos :=
  prev.foldl pmStep (fun _ => none)

/-- Apply a cached entry to one node of the new subgraph: copy the cached
coordinates and velocities and clear any pin (`fx = fy = null`); leave the
node untouched when its id has no cache entry. -/
def applyCached (pm : String → Option CachedPos) (n : SimNode) : SimNode :=
  match pm n.id with
  | some c =>
    { n with x := some c.x, y := some c.y, vx := some c.vx, vy := some c.vy,
             fx := none, fy := none }
  | none => n

/-- The 2D position-continuity effect (`ForceGraph.tsx`): when both the old
and the new node list are non-empty, restore cached state into the new
list; otherwise leave it alone. -/
def restorePositions (prev new : List SimNode) : List SimNode :=
  if 0 < prev.length ∧ 0 < new.length then
    new.map (applyCached (positionMap prev))
  else new

/-- A cached render primitive: an optional geometry resource, material
resources, and child visuals (labels), each resource named by a number. -/
inductive Drawable where
  | mk : Option ℕ → List ℕ → List Drawable → Drawable

/-- The `disposeObject` helper of `ForceGraph3D.tsx`: release the geometry, then every
material, then recursively every child visual; the result lists the
resources released, in release order. -/
def disposeObject : Drawable → List ℕ
  | .mk g ms cs => g.toList ++ ms ++ cs.attach.flatMap (fun c => disposeObject c.1)
decreasing_by
  have := List.sizeOf_lt_of_mem c.2
  cases c; simp_all; omega

/-- JavaScript stringification of a boolean (template-literal interpolation). -/
def boolStr (b : Bool) : String := if b then "true" else "false"

/-- The node-cache key of the 3D view:
`id-isSelected-isHighlighted-colorMode`. -/
def nodeCacheKey (id : String) (sel high : Bool) (colorMode : String) : String :=
  id ++ "-" ++ boolStr sel ++ "-" ++ boolStr high ++ "-" ++ colorMode

/-- The node-cache sweep of the 3D cleanup effect: for every cache entry,
take `key.split('-')[0]` as the node id; keep the entry when that id is in
the current visible node-id set, otherwise dispose the drawable and drop
the entry.  Returns the surviving entries and the released resources. -/
def sweepNodeCache (cache : List (String × Drawable)) (ids : List String) :
    List (String × Drawable) × List ℕ :=
  cache.foldr
    (fun e acc =>
      if ids.contains (firstDashGroup e.1) then (e :: acc.1, acc.2)
      else (acc.1, disposeObject e.2 ++ acc.2))
    ([], [])

/-- JavaScript `key.split('-')[1]` as a string: the second dash-separated
group, or the string `undefined` when there is no dash (destructuring a
one-element array stringifies the missing component). -/
def secondDashGroup (s : String) : String :=
  match splitDash s.data with
  | _ :: g :: _ => String.mk g
  | _ => "undefined"

/-- The link-cache key of the 3D view: `sourceId-targetId`, also the form
of the entries of the `currentLinkIds` set. -/
def linkCacheKey (src tgt : String) : String :=
  src ++ "-" ++ tgt

/-- The link id the sweep reconstructs from a cache key:
`const [sourceId, targetId] = key.split('-')` followed by re-joining the
two components with a dash. -/
def linkCacheId (key : String) : String :=
  firstDashGroup key ++ "-" ++ secondDashGroup key

/-- The link-cache sweep of the 3D cleanup effect: for every cache entry,
rebuild `sourceId-targetId` from the first two dash-separated groups of
the key; keep the entry when that id is in the current visible link-id
set, otherwise dispose the drawable and drop the entry.  Returns the
surviving entries and the released resources. -/
def sweepLinkCache (cache : List (String × Drawable)) (linkIds : List String) :
    List (String × Drawable) × List ℕ :=
  cache.foldr
    (fun e acc =>
      if linkIds.contains (linkCacheId e.1) then (e :: acc.1, acc.2)
      else (acc.1, disposeObject e.2 ++ acc.2))
    ([], [])

/-- Per-node physics state once the simulation is running: defined
coordinates and velocities, plus an optional pin per axis. -/
structure PhysNode where
  x : ℚ
  y : ℚ
  vx : ℚ
  vy : ℚ
  fx : Option ℚ := none
  fy : Option ℚ := none
deriving DecidableEq, Repr

/-- Velocity damping multiplier: `velocityDecay(0.65)` keeps 35% of the
velocity each tick. -/
def velKeep2D : ℚ := 35 / 100

/-- Modelled from the spec: d3-force's per-tick integration, which is not in
the repository (it is the library the views drive).  Per axis, a pinned
axis takes its position directly from the pin and zeroes its velocity; a
free axis accumulates the force contribution into the damped velocity and
moves by it.  `a` is the combined force contribution for this node. -/
def integrateNode (a : ℚ × ℚ) (n : PhysNode) : PhysNode :=
  let vx := match n.fx with | some _ => 0 | none => (n.vx + a.1) * velKeep2D
  let vy := match n.fy with | some _ => 0 | none => (n.vy + a.2) * velKeep2D
  { n with
    x := match n.fx with | some px => px | none => n.x + vx
    y := match n.fy with | some py => py | none => n.y + vy
    vx := vx, vy := vy }

/-- The viewport clamp of the 2D tick handler: a truthy (non-zero)
coordinate is clamped into `[r, extent - r]` with `r = 10`; a zero
coordinate is left alone (`if (node.x)`). -/
def clampNode (width height : ℚ) (n : PhysNode) : PhysNode :=
  { n with
    x := if n.x ≠ 0 then max 10 (min (width - 10) n.x) else n.x
    y := if n.y ≠ 0 then max 10 (min (height - 10) n.y) else n.y }

/-- The exact-overlap jitter of the 2D tick handler: compare the node
against every other node in array order; on an exact coordinate match add
`(random - 0.5) * 5` to each coordinate, drawing two fresh samples from
the stream `rs` at cursor `k`. -/
def jitterScan (rs : ℕ → ℚ) : ℕ → PhysNode → List PhysNode → PhysNode × ℕ
  | k, n, [] => (n, k)
  | k, n, o :: os =>
    if n.x = o.x ∧ n.y = o.y then
      jitterScan rs (k + 2)
        { n with x := n.x + (rs k - 1/2) * 5, y := n.y + (rs (k + 1) - 1/2) * 5 } os
    else jitterScan rs k n os

/-- One step list of the tick handler's per-node pass: clamp the node, then
jitter it against the other nodes (earlier nodes already processed, later
nodes not yet), then move on. -/
def handlerAux (rs : ℕ → ℚ) (width height : ℚ) :
    ℕ → List PhysNode → List PhysNode → List PhysNode
  | _, done, [] => done
  | k, done, n :: todo =>
    let p := jitterScan rs k (clampNode width height n) (done ++ todo)
    handlerAux rs width height p.2 (done ++ [p.1]) todo

/-- The 2D tick handler's viewport-constraint body (`sim.on('tick', ...)`
in `ForceGraph.tsx`): for each node in order, clamp it into the viewport
and jitter it off exact overlaps with the other nodes.  Runs only when the
handler's early return does not fire (see `tickHandler`). -/
def handlerPass (rs : ℕ → ℚ) (width height : ℚ) (nodes : List PhysNode) :
    List PhysNode :=
  handlerAux rs width height 0 [] nodes

/-- The 2D tick handler including its throttle: the handler increments a
tick counter and returns early — skipping the clamp and jitter entirely —
when the previous count was odd and more than 200 nodes are visible
(`if (tickCount % 2 !== 0 && filteredData.nodes.length > 200) return`);
otherwise it runs the viewport-constraint body. -/
def tickHandler (rs : ℕ → ℚ) (tickCount : ℕ) (width height : ℚ)
    (nodes : List PhysNode) : List PhysNode :=
  if tickCount % 2 ≠ 0 ∧ 200 < nodes.length then nodes
  else handlerPass rs width height nodes

/-- One full simulation tick as the 2D view experiences it: d3 integration
with per-node force contributions `forces` (zipped positionally), followed
by the view's tick handler. -/
def tick2D (rs : ℕ → ℚ) (width height : ℚ) (forces : List (ℚ × ℚ))
    (nodes : List PhysNode) : List PhysNode :=
  handlerPass rs width height (List.zipWith integrateNode forces nodes)

/-- Drag-start of the 2D view: the subject's current position becomes its
pin. -/
def dragstarted2D (s : PhysNode) : PhysNode :=
  { s with fx := some s.x, fy := some s.y }

/-- Drag-move of the 2D view: the pin follows the pointer. -/
def dragged2D (ex ey : ℚ) (s : PhysNode) : PhysNode :=
  { s with fx := some ex, fy := some ey }

/-- Drag-end of the main 2D view: the pin is kept when shift is held,
cleared otherwise. -/
def dragended2D (shift : Bool) (s : PhysNode) : PhysNode :=
  if shift then s else { s with fx := none, fy := none }

/-- Drag-end of the legacy 2D variant: the pin is always cleared. -/
def dragendedLegacy (s : PhysNode) : PhysNode :=
  { s with fx := none, fy := none }

/-- Per-node 3D state (position, velocity and pin per axis). -/
structure PhysNode3 where
  x : ℚ
  y : ℚ
  z : ℚ
  fx : Option ℚ := none
  fy : Option ℚ := none
  fz : Option ℚ := none
deriving DecidableEq, Repr

/-- The `onNodeDragEnd` handler of the 3D view: the node is always pinned at its
current position; no modifier is consulted. -/
def onNodeDragEnd3D (n : PhysNode3) : PhysNode3 :=
  { n with fx := some n.x, fy := some n.y, fz := some n.z }

/-- The `alphaDecay(0.006)` setting of the 2D simulation. -/
def alphaDecay2D : ℚ := 6 / 1000

/-- The `alphaMin(0.0005)` setting of the 2D simulation: d3 stops scheduling ticks once
alpha falls below this threshold. -/
def alphaMin2D : ℚ := 1 / 2000

/-- Modelled from the spec: one d3 alpha update, which is library code and
not in the repository — alpha moves a fixed fraction `alphaDecay` of the
way toward the current alpha target each tick. -/
def coolStep (target a : ℚ) : ℚ :=
  a + (target - a) * alphaDecay2D

/-- The alpha target in effect during tick `k`, given the ticks `n1 ≤ n2 ≤
n3` at whose boundaries the three cooling timeouts of the 2D view fire:
target 0 until the first timeout, then `alphaTarget(0.05)`, then
`alphaTarget(0.01)`, then `alphaTarget(0)`. -/
def coolTarget (n1 n2 n3 k : ℕ) : ℚ :=
  if k < n1 then 0
  else if k < n2 then 1/20
  else if k < n3 then 1/100
  else 0

/-- Alpha just before tick `k` runs, for the 2D cooling schedule: initial
`alpha(0.3)`; the first timeout also runs `alpha(0.1)` and the third also
runs `alpha(0.005)` at their boundaries; every tick applies the d3 alpha
update with the target then in effect. -/
def alphaSeq (n1 n2 n3 : ℕ) : ℕ → ℚ
  | 0 => 3/10
  | k + 1 =>
    if k + 1 = n1 then 1/10
    else if k + 1 = n3 then 1/200
    else coolStep (coolTarget n1 n2 n3 k) (alphaSeq n1 n2 n3 k)

/-- The d3 stop condition: once alpha is below `alphaMin` the internal
timer stops and no further tick is scheduled. -/
def simSettled (a : ℚ) : Prop := a < alphaMin2D

/-- JavaScript truthiness of the nullable selected-node id: `null` and the
empty string are falsy. -/
def selActive (sel : Option String) : Bool :=
  match sel with
  | none => false
  | some s => s ≠ ""

/-- A link touches the id `s`. -/
def linkTouches (l : Relationship) (s : String) : Bool :=
  l.source = s || l.target = s

/-- The initial-render link opacity of the 2D view: with a selected node,
links touching it get opacity 1 and every other link 0.1; with no
selection, links of a disabled relationship category get 0.3 and the rest
0.7. -/
def linkOpacity2D (f : FilterState) (sel : Option String) (l : Relationship) : ℚ :=
  if selActive sel then
    if linkTouches l (sel.getD "") then 1 else 1/10
  else if f.relationshipTypes l.rtype then 7/10
  else 3/10

/-- A link of the visible set directly connects the selected id `s` with
the node id `nid` (the `isConnected` check of the 2D node opacity). -/
def isNeighbor (links : List Relationship) (s nid : String) : Bool :=
  links.any (fun l => (l.source = s ∧ l.target = nid) ∨ (l.source = nid ∧ l.target = s))

/-- The initial-render node opacity of the 2D view: with a selected node,
the selected node and its direct neighbors get opacity 1 and every other
node 0.2; with no selection every node gets 1. -/
def nodeOpacity2D (links : List Relationship) (sel : Option String) (n : Entity) : ℚ :=
  if selActive sel then
    let s := sel.getD ""
    if n.id = s then 1
    else if isNeighbor links s n.id then 1
    else 1/5
  else 1

/-- The dash style of a 2D link: dashed `5,5` for `conflict`, dotted `2,2`
when the link's relationship category is toggled off, solid otherwise. -/
def linkDash2D (f : FilterState) (l : Relationship) : Option String :=
  if l.rtype = .conflict then some "5,5"
  else if f.relationshipTypes l.rtype then none
  else some "2,2"

/-- Actions the 2D view's timers and cleanup perform on the simulation
handle. -/
inductive SimEvent where
  | stop
  | setAlphaTarget (v : ℚ)
  | setAlpha (v : ℚ)
deriving DecidableEq, Repr

/-- The cooling timers the 2D graph effect schedules right after creating
the simulation: at 1000 ms `alphaTarget(0.05); alpha(0.1)`, at 1000+3000 ms
`alphaTarget(0.01)`, at 1000+3000+5000 ms `alphaTarget(0); alpha(0.005)`
(the inner timeouts are scheduled by the outer callbacks). -/
def coolingTimers : List (ℕ × List SimEvent) :=
  [ (1000, [.setAlphaTarget (1/20), .setAlpha (1/10)])
  , (4000, [.setAlphaTarget (1/100)])
  , (9000, [.setAlphaTarget 0, .setAlpha (1/200)]) ]

/-- The timer handles the 2D graph effect's cleanup cancels: the cleanup
body is exactly `sim.stop()`, so no timeout is ever cleared. -/
def cancelledOnCleanup : List ℕ := []

/-- The sequence of actions the simulation handle receives when the view is
torn down at time `t`: the cleanup runs `stop()`, and afterwards every
cooling timer not yet fired and not cancelled still fires against the same
(now stopped) simulation handle. -/
def teardownTrace (t : ℕ) : List SimEvent :=
  [SimEvent.stop] ++
    ((coolingTimers.filter
        (fun e => t ≤ e.1 && !(cancelledOnCleanup.contains e.1))).flatMap Prod.snd)

/-- The alpha-target and alpha updates that reach the simulation handle
after it has been stopped, for a teardown at time `t`. -/
def updatesAfterStop (t : ℕ) : List SimEvent :=
  (teardownTrace t).dropWhile (fun e => e ≠ SimEvent.stop) |>.tail

theorem foldl_pmStep_not_written (l : List SimNode) (m : String → Option CachedPos)
    (k : String)
    (h : ∀ p ∈ l, p.id = k → ¬(p.id ≠ "" ∧ p.x.isSome ∧ p.y.isSome)) :
    l.foldl pmStep m k = m k := by
  induction l generalizing m with
  | nil => rfl
  | cons p t ih =>
    have hp := h p (List.mem_cons_self p t)
    have ht : ∀ q ∈ t, q.id = k → ¬(q.id ≠ "" ∧ q.x.isSome ∧ q.y.isSome) :=
      fun q hq => h q (List.mem_cons_of_mem p hq)
    rw [List.foldl_cons, ih _ ht]
    unfold pmStep
    split
    · rename_i hcond
      have hkne : k ≠ p.id := by
        intro e
        exact hp e.symm hcond
      simp [hkne]
    · rfl

theorem foldl_pmStep_found (l : List SimNode) (m : String → Option CachedPos)
    (n : SimNode) (hn : n ∈ l) (hnd : (l.map SimNode.id).Nodup)
    (hid : n.id ≠ "") (hx : n.x.isSome) (hy : n.y.isSome) :
    l.foldl pmStep m n.id =
      some ⟨n.x.getD 0, n.y.getD 0, n.vx.getD 0, n.vy.getD 0⟩ := by
  induction l generalizing m with
  | nil => cases hn
  | cons p t ih =>
    rw [List.map_cons, List.nodup_cons] at hnd
    rcases List.mem_cons.mp hn with h | h
    · subst h
      have ht : ∀ q ∈ t, q.id = n.id → ¬(q.id ≠ "" ∧ q.x.isSome ∧ q.y.isSome) := by
        intro q hq he _
        exact hnd.1 (he ▸ List.mem_map_of_mem SimNode.id hq)
      rw [List.foldl_cons, foldl_pmStep_not_written t _ _ ht]
      unfold pmStep
      rw [if_pos ⟨hid, hx, hy⟩, if_pos rfl]
    · rw [List.foldl_cons]
      exact ih _ h hnd.2

/-- C2: for a subgraph (filter) change, every node id visible both before
and after keeps its exact position and its velocity across the continuity
effect; the node record carried over (`n ∈ prev` and `n ∈ new`, node ids
being unique) reappears in the restored list with the same coordinates and
the same numeric velocity (an undefined velocity counts as 0, which is how
d3 initializes it).  Ids not previously seen are left untouched and so get
the default placement. -/
theorem c2_position_continuity (prev new : List SimNode) (n : SimNode)
    (hp : n ∈ prev) (hn : n ∈ new)
    (hnd : (prev.map SimNode.id).Nodup) :
    ∃ n' ∈ restorePositions prev new,
      n'.id = n.id ∧ n'.x = n.x ∧ n'.y = n.y ∧
      n'.vx.getD 0 = n.vx.getD 0 ∧ n'.vy.getD 0 = n.vy.getD 0 := by
  refine ⟨applyCached (positionMap prev) n, ?_, ?_⟩
  · rw [restorePositions,
      if_pos ⟨List.length_pos.mpr (List.ne_nil_of_mem hp),
        List.length_pos.mpr (List.ne_nil_of_mem hn)⟩]
    exact List.mem_map_of_mem _ hn
  · by_cases hc : n.id ≠ "" ∧ n.x.isSome ∧ n.y.isSome
    · obtain ⟨hid, hx, hy⟩ := hc
      have hm := foldl_pmStep_found prev (fun _ => none) n hp hnd hid hx hy
      rw [applyCached, positionMap] at *
      rw [hm]
      obtain ⟨a, ha⟩ := Option.isSome_iff_exists.mp hx
      obtain ⟨b, hb⟩ := Option.isSome_iff_exists.mp hy
      simp [ha, hb]
    · have hm : positionMap prev n.id = none := by
        rw [positionMap]
        refine foldl_pmStep_not_written prev _ n.id ?_
        intro p hpm he hcond
        have hpn : p = n := List.inj_on_of_nodup_map hnd hpm hp he
        exact hc (hpn ▸ hcond)
      rw [applyCached, hm]
      exact ⟨rfl, rfl, rfl, rfl, rfl⟩

/-- Witness for C2: a concrete one-node subgraph kept across a filter
change retains its position `(5, 6)` and velocity `(1, 2)`. -/
theorem c2_witness :
    ∃ n' ∈ restorePositions
        [{ id := "n1", x := some 5, y := some 6, vx := some 1, vy := some 2 }]
        [{ id := "n1", x := some 5, y := some 6, vx := some 1, vy := some 2 }],
      n'.id = "n1" ∧ n'.x = some 5 ∧ n'.y = some 6 ∧
      n'.vx.getD 0 = (1 : ℚ) ∧ n'.vy.getD 0 = (2 : ℚ) :=
  c2_position_continuity _ _
    { id := "n1", x := some 5, y := some 6, vx := some 1, vy := some 2 }
    (by decide) (by decide) (by decide)

/-- C10: in the 2D subgraph filter, time-range visibility consults only the
year parsed from `startDate`: a node with no `startDate` is visible (its
entity type permitting) for every `timeRange` setting, and changing
`endDate` never changes visibility. -/
theorem c10_timerange_only_startDate (f : FilterState) (n : Entity) :
    (n.startDate = none →
      ∀ lo hi, nodeVisible2D { f with timeRange := (lo, hi) } n = f.entityTypes n.etype)
    ∧ ∀ e, nodeVisible2D f { n with endDate := e } = nodeVisible2D f n := by
  constructor
  · intro h lo hi
    simp [nodeVisible2D, h]
  · intro e
    rfl

/-- Witness for C10: a node with no start date stays visible under an
arbitrary time range, and an end date of 1900 does not affect it. -/
theorem c10_witness :
    ({ id := "n", name := "N", etype := .person } : Entity).startDate = none ∧
    nodeVisible2D
      { entityTypes := fun _ => true, relationshipTypes := fun _ => true,
        timeRange := (1700, 1800) }
      { id := "n", name := "N", etype := .person } = true ∧
    nodeVisible2D
      { entityTypes := fun _ => true, relationshipTypes := fun _ => true,
        timeRange := (0, 0) }
      { id := "n", name := "N", etype := .person, endDate := some "1900" } =
    nodeVisible2D
      { entityTypes := fun _ => true, relationshipTypes := fun _ => true,
        timeRange := (0, 0) }
      { id := "n", name := "N", etype := .person } :=
  ⟨rfl,
    (c10_timerange_only_startDate
      { entityTypes := fun _ => true, relationshipTypes := fun _ => true,
        timeRange := (0, 0) }
      { id := "n", name := "N", etype := .person }).1 rfl 1700 1800,
    (c10_timerange_only_startDate
      { entityTypes := fun _ => true, relationshipTypes := fun _ => true,
        timeRange := (0, 0) }
      { id := "n", name := "N", etype := .person }).2 (some "1900")⟩

/-- Counterexample for C1: two visible person nodes joined by a `family`
link; with the `family` relationship category disabled, the 3D visible
subgraph drops the link even though both endpoints are visible — so the
visible link set is not independent of the relationship-category toggles. -/
theorem c1_counterexample :
    visibleId3D
      { nodes := [{ id := "a", name := "A", etype := .person },
                  { id := "b", name := "B", etype := .person }],
        links := [{ id := "l1", source := "a", target := "b", rtype := .family }] }
      { entityTypes := fun _ => true, relationshipTypes := fun _ => false,
        timeRange := (0, 3000) } "a" = true ∧
    visibleId3D
      { nodes := [{ id := "a", name := "A", etype := .person },
                  { id := "b", name := "B", etype := .person }],
        links := [{ id := "l1", source := "a", target := "b", rtype := .family }] }
      { entityTypes := fun _ => true, relationshipTypes := fun _ => false,
        timeRange := (0, 3000) } "b" = true ∧
    (filteredData3D
      { nodes := [{ id := "a", name := "A", etype := .person },
                  { id := "b", name := "B", etype := .person }],
        links := [{ id := "l1", source := "a", target := "b", rtype := .family }] }
      { entityTypes := fun _ => true, relationshipTypes := fun _ => false,
        timeRange := (0, 3000) }).links = [] := by
  refine ⟨rfl, rfl, rfl⟩

/-- C1 (amended): in the 2D view the visible link set contains exactly the
links of the data whose endpoint ids are both visible, and it is
independent of the relationship-category toggles; the 3D view additionally
requires the link's relationship category to pass its toggle test (which
always passes `cultural`), so there a disabled category does remove links
from the visible subgraph and hence from the layout forces. -/
theorem c1_amended_link_membership (d : GraphData) (f g : FilterState)
    (l : Relationship)
    (hent : f.entityTypes = g.entityTypes) (htime : f.timeRange = g.timeRange) :
    ((l ∈ (filteredData2D d f).links ↔
      l ∈ d.links ∧ visibleId2D d f l.source = true ∧ visibleId2D d f l.target = true)
    ∧ (filteredData2D d f).links = (filteredData2D d g).links)
    ∧ (l ∈ (filteredData3D d f).links ↔
      l ∈ d.links ∧ visibleId3D d f l.source = true ∧ visibleId3D d f l.target = true
        ∧ relEnabled3D f l.rtype = true) := by
  refine ⟨⟨?_, ?_⟩, ?_⟩
  · simp [filteredData2D, visibleId2D, List.mem_filter, and_assoc]
  · have hv : nodeVisible2D f = nodeVisible2D g := by
      funext n
      rw [nodeVisible2D, nodeVisible2D, hent, htime]
    simp [filteredData2D, hv]
  · simp [filteredData3D, visibleId3D, List.mem_filter, and_assoc]

/-- Witness for C1 (amended): a concrete social link between two visible
nodes is in the 2D visible subgraph, with the membership characterization
and toggle-independence instantiated at a filter pair differing only in
relationship toggles. -/
theorem c1_amended_witness :
    (({ id := "l1", source := "a", target := "b", rtype := .social } : Relationship) ∈
        (filteredData2D
          { nodes := [{ id := "a", name := "A", etype := .person },
                      { id := "b", name := "B", etype := .person }],
            links := [{ id := "l1", source := "a", target := "b", rtype := .social }] }
          { entityTypes := fun _ => true, relationshipTypes := fun _ => true,
            timeRange := (0, 3000) }).links ↔
      ({ id := "l1", source := "a", target := "b", rtype := .social } : Relationship) ∈
        [{ id := "l1", source := "a", target := "b", rtype := .social }] ∧
      visibleId2D
          { nodes := [{ id := "a", name := "A", etype := .person },
                      { id := "b", name := "B", etype := .person }],
            links := [{ id := "l1", source := "a", target := "b", rtype := .social }] }
          { entityTypes := fun _ => true, relationshipTypes := fun _ => true,
            timeRange := (0, 3000) } "a" = true ∧
      visibleId2D
          { nodes := [{ id := "a", name := "A", etype := .person },
                      { id := "b", name := "B", etype := .person }],
            links := [{ id := "l1", source := "a", target := "b", rtype := .social }] }
          { entityTypes := fun _ => true, relationshipTypes := fun _ => true,
            timeRange := (0, 3000) } "b" = true) ∧
    ((filteredData2D
        { nodes := [{ id := "a", name := "A", etype := .person },
                    { id := "b", name := "B", etype := .person }],
          links := [{ id := "l1", source := "a", target := "b", rtype := .social }] }
        { entityTypes := fun _ => true, relationshipTypes := fun _ => true,
          timeRange := (0, 3000) }).links =
      (filteredData2D
        { nodes := [{ id := "a", name := "A", etype := .person },
                    { id := "b", name := "B", etype := .person }],
          links := [{ id := "l1", source := "a", target := "b", rtype := .social }] }
        { entityTypes := fun _ => true, relationshipTypes := fun _ => false,
          timeRange := (0, 3000) }).links) :=
  ⟨(c1_amended_link_membership
    { nodes := [{ id := "a", name := "A", etype := .person },
                { id := "b", name := "B", etype := .person }],
      links := [{ id := "l1", source := "a", target := "b", rtype := .social }] }
    { entityTypes := fun _ => true, relationshipTypes := fun _ => true,
      timeRange := (0, 3000) }
    { entityTypes := fun _ => true, relationshipTypes := fun _ => false,
      timeRange := (0, 3000) }
    { id := "l1", source := "a", target := "b", rtype := .social }
    rfl rfl).1.1, (c1_amended_link_membership
    { nodes := [{ id := "a", name := "A", etype := .person },
                { id := "b", name := "B", etype := .person }],
      links := [{ id := "l1", source := "a", target := "b", rtype := .social }] }
    { entityTypes := fun _ => true, relationshipTypes := fun _ => true,
      timeRange := (0, 3000) }
    { entityTypes := fun _ => true, relationshipTypes := fun _ => false,
      timeRange := (0, 3000) }
    { id := "l1", source := "a", target := "b", rtype := .social }
    rfl rfl).1.2⟩

/-- Counterexample for C5: in the 3D view, `onNodeDragEnd` pins the node at
its current position unconditionally — no hold modifier is consulted, so a
plain (no-shift) drag-end does not clear the pin as the claim requires. -/
theorem c5_counterexample :
    onNodeDragEnd3D { x := 7, y := 8, z := 9 } =
      { x := 7, y := 8, z := 9, fx := some 7, fy := some 8, fz := some 9 } ∧
    (onNodeDragEnd3D { x := 7, y := 8, z := 9 }).fx ≠ none := by
  refine ⟨rfl, by decide⟩

/-- C5 (amended): drag-end behavior differs per view.  In the main 2D view
a full drag gesture ending at pointer `(ex, ey)` leaves the node pinned at
`(ex, ey)` exactly when shift was held at drag-end and free otherwise; the
3D view always pins the node at its current position on drag-end; the
legacy 2D variant always clears the pin, shift or not. -/
theorem c5_amended_dragend (s : PhysNode) (ex ey : ℚ) (shift : Bool)
    (n : PhysNode3) :
    ((dragended2D shift (dragged2D ex ey (dragstarted2D s))).fx =
        (if shift then some ex else none) ∧
      (dragended2D shift (dragged2D ex ey (dragstarted2D s))).fy =
        (if shift then some ey else none))
    ∧ ((onNodeDragEnd3D n).fx = some n.x ∧ (onNodeDragEnd3D n).fy = some n.y
      ∧ (onNodeDragEnd3D n).fz = some n.z)
    ∧ ((dragendedLegacy (dragged2D ex ey (dragstarted2D s))).fx = none
      ∧ (dragendedLegacy (dragged2D ex ey (dragstarted2D s))).fy = none) := by
  cases shift <;>
    simp [dragended2D, dragged2D, dragstarted2D, dragendedLegacy, onNodeDragEnd3D]

/-- C8: the 2D graph effect's cleanup is `sim.stop()` alone; none of the
three cooling timeouts is cancelled, so on a teardown right after mount
all five cooling actions (alpha-target and alpha updates) still fire
against the already-stopped simulation — the claimed cancellation does not
happen. -/
theorem c8_updates_fire_after_stop :
    updatesAfterStop 0 =
      [.setAlphaTarget (1/20), .setAlpha (1/10), .setAlphaTarget (1/100),
        .setAlphaTarget 0, .setAlpha (1/200)] ∧
    cancelledOnCleanup = [] ∧
    SimEvent.setAlphaTarget (1/20) ∈ updatesAfterStop 0 := by
  refine ⟨rfl, rfl, ?_⟩
  have h : updatesAfterStop 0 =
      [.setAlphaTarget (1/20), .setAlpha (1/10), .setAlphaTarget (1/100),
        .setAlphaTarget 0, .setAlpha (1/200)] := rfl
  rw [h]
  exact List.mem_cons_self _ _

/-- Counterexample for C9: in a graph where node `a` has exactly three
incident links (to `b`, `c`, `d`), selecting `a` gives the neighbor node
`b` full opacity 1 — not the low opacity the claim assigns to every node
other than `a`. -/
theorem c9_counterexample :
    (([{ id := "l1", source := "a", target := "b", rtype := .social },
       { id := "l2", source := "a", target := "c", rtype := .social },
       { id := "l3", source := "d", target := "a", rtype := .family }] :
        List Relationship).filter (fun l => linkTouches l "a")).length = 3 ∧
    nodeOpacity2D
      [{ id := "l1", source := "a", target := "b", rtype := .social },
       { id := "l2", source := "a", target := "c", rtype := .social },
       { id := "l3", source := "d", target := "a", rtype := .family }]
      (some "a") { id := "b", name := "B", etype := .person } = 1 ∧
    ("b" : String) ≠ "a" := by
  refine ⟨rfl, rfl, by decide⟩

/-- C9 (amended): with a node `a` selected, the 2D opacity resolver gives
full opacity to `a`, to every link touching `a`, and also to every direct
neighbor node of `a`; every other link gets low opacity 0.1 and every
other node low opacity 0.2. -/
theorem c9_amended_opacity (links : List Relationship) (f : FilterState)
    (a : String) (ha : a ≠ "") (n : Entity) (l : Relationship) :
    nodeOpacity2D links (some a) n =
      (if n.id = a ∨ isNeighbor links a n.id = true then 1 else 1/5) ∧
    linkOpacity2D f (some a) l =
      (if linkTouches l a = true then 1 else 1/10) := by
  constructor
  · rw [nodeOpacity2D]
    have hs : selActive (some a) = true := by simp [selActive, ha]
    rw [if_pos hs]
    by_cases h1 : n.id = a
    · simp [h1]
    · by_cases h2 : isNeighbor links a n.id = true <;> simp [h1, h2]
  · rw [linkOpacity2D]
    have hs : selActive (some a) = true := by simp [selActive, ha]
    rw [if_pos hs]
    by_cases h : linkTouches l a = true <;> simp [h]

/-- Witness for C9 (amended): instantiated at the three-neighbor graph of
the counterexample — the neighbor `b` gets opacity 1 and the incident link
gets opacity 1. -/
theorem c9_amended_witness :
    nodeOpacity2D
      [{ id := "l1", source := "a", target := "b", rtype := .social },
       { id := "l2", source := "a", target := "c", rtype := .social },
       { id := "l3", source := "d", target := "a", rtype := .family }]
      (some "a") { id := "b", name := "B", etype := .person } =
      (if ("b" : String) = "a" ∨ isNeighbor
          [{ id := "l1", source := "a", target := "b", rtype := .social },
           { id := "l2", source := "a", target := "c", rtype := .social },
           { id := "l3", source := "d", target := "a", rtype := .family }] "a" "b" = true
        then 1 else 1/5) ∧
    linkOpacity2D
      { entityTypes := fun _ => true, relationshipTypes := fun _ => true,
        timeRange := (0, 3000) }
      (some "a") { id := "l1", source := "a", target := "b", rtype := .social } =
      (if linkTouches
          { id := "l1", source := "a", target := "b", rtype := .social } "a" = true
        then 1 else 1/10) :=
  c9_amended_opacity
    [{ id := "l1", source := "a", target := "b", rtype := .social },
     { id := "l2", source := "a", target := "c", rtype := .social },
     { id := "l3", source := "d", target := "a", rtype := .family }]
    { entityTypes := fun _ => true, relationshipTypes := fun _ => true,
      timeRange := (0, 3000) }
    "a" (by decide) { id := "b", name := "B", etype := .person }
    { id := "l1", source := "a", target := "b", rtype := .social }

theorem splitDash_ne_nil (l : List Char) : splitDash l ≠ [] := by
  cases l with
  | nil => simp [splitDash]
  | cons c rest =>
    rw [splitDash]
    cases h : splitDash rest with
    | nil => simp
    | cons g gs =>
      by_cases hc : c = '-' <;> simp [hc]

theorem splitDash_append_sep (a b : List Char) (h : '-' ∉ a) :
    splitDash (a ++ '-' :: b) = a :: splitDash b := by
  induction a with
  | nil =>
    rw [List.nil_append, splitDash]
    cases hb : splitDash b with
    | nil => exact absurd hb (splitDash_ne_nil b)
    | cons g gs => simp [← hb]
  | cons c a ih =>
    have hc : c ≠ '-' := fun e => h (e ▸ List.mem_cons_self c a)
    have ha : '-' ∉ a := fun e => h (List.mem_cons_of_mem c e)
    rw [List.cons_append, splitDash, ih ha]
    simp [hc]

theorem firstDashGroup_key (id : String) (rest : String) (h : '-' ∉ id.data) :
    firstDashGroup (id ++ "-" ++ rest) = id := by
  rw [firstDashGroup]
  have hd : (id ++ "-" ++ rest).data = id.data ++ '-' :: rest.data := by
    simp [String.data_append]
  rw [hd, splitDash_append_sep id.data rest.data h]
  cases id
  rfl

theorem firstDashGroup_nodeCacheKey (id : String) (sel high : Bool)
    (cm : String) (h : '-' ∉ id.data) :
    firstDashGroup (nodeCacheKey id sel high cm) = id := by
  rw [nodeCacheKey]
  have : id ++ "-" ++ boolStr sel ++ "-" ++ boolStr high ++ "-" ++ cm =
      id ++ "-" ++ (boolStr sel ++ "-" ++ boolStr high ++ "-" ++ cm) := by
    simp [String.append_assoc]
  rw [this]
  exact firstDashGroup_key id _ h

theorem sweepNodeCache_eq (cache : List (String × Drawable)) (ids : List String) :
    (sweepNodeCache cache ids).1 =
      cache.filter (fun e => ids.contains (firstDashGroup e.1)) ∧
    (sweepNodeCache cache ids).2 =
      (cache.filter (fun e => !(ids.contains (firstDashGroup e.1)))).flatMap
        (fun e => disposeObject e.2) := by
  induction cache with
  | nil => exact ⟨rfl, rfl⟩
  | cons e t ih =>
    rw [sweepNodeCache, List.foldr_cons] at *
    by_cases h : firstDashGroup e.1 ∈ ids
    · have hb : ids.contains (firstDashGroup e.1) = true := by simpa using h
      simp only [hb, h, List.filter_cons, if_pos, if_true]
      simp [h, ih.1, ih.2]
      exact ⟨by simpa using ih.1, by simpa using ih.2⟩
    · have hb : ids.contains (firstDashGroup e.1) = false := by simpa using h
      simp only [hb, List.filter_cons]
      simp [h, ih.1, ih.2]
      exact ⟨by simpa using ih.1, by simpa using ih.2⟩

theorem splitDash_no_dash (l : List Char) (h : '-' ∉ l) : splitDash l = [l] := by
  induction l with
  | nil => rfl
  | cons c t ih =>
    have hc : c ≠ '-' := fun e => h (e ▸ List.mem_cons_self c t)
    have ht : '-' ∉ t := fun e => h (List.mem_cons_of_mem c e)
    rw [splitDash, ih ht]
    simp [hc]

theorem linkCacheId_of_key (s t : String) (hs : '-' ∉ s.data) (ht : '-' ∉ t.data) :
    linkCacheId (linkCacheKey s t) = linkCacheKey s t := by
  have hd : (linkCacheKey s t).data = s.data ++ '-' :: t.data := by
    rw [linkCacheKey]
    simp [String.data_append]
  have hsplit : splitDash (linkCacheKey s t).data = [s.data, t.data] := by
    rw [hd, splitDash_append_sep s.data t.data hs, splitDash_no_dash t.data ht]
  rw [linkCacheId, firstDashGroup, secondDashGroup, hsplit]
  cases s
  cases t
  rfl

theorem sweepLinkCache_eq (cache : List (String × Drawable)) (linkIds : List String) :
    (sweepLinkCache cache linkIds).1 =
      cache.filter (fun e => linkIds.contains (linkCacheId e.1)) ∧
    (sweepLinkCache cache linkIds).2 =
      (cache.filter (fun e => !(linkIds.contains (linkCacheId e.1)))).flatMap
        (fun e => disposeObject e.2) := by
  induction cache with
  | nil => exact ⟨rfl, rfl⟩
  | cons e t ih =>
    rw [sweepLinkCache, List.foldr_cons] at *
    by_cases h : linkCacheId e.1 ∈ linkIds
    · have hb : linkIds.contains (linkCacheId e.1) = true := by simpa using h
      simp only [hb, h, List.filter_cons, if_pos, if_true]
      simp [h, ih.1, ih.2]
      exact ⟨by simpa using ih.1, by simpa using ih.2⟩
    · have hb : linkIds.contains (linkCacheId e.1) = false := by simpa using h
      simp only [hb, List.filter_cons]
      simp [h, ih.1, ih.2]
      exact ⟨by simpa using ih.1, by simpa using ih.2⟩

/-- Counterexample for C3: both sweeps recover identities by splitting the
cache key on `'-'`, which truncates any id containing a dash.  Node cache:
the entry built from node id `a-b` (no longer visible) survives while only
node `a` is visible, because `key.split('-')[0]` yields `a`.  Link cache:
the entry for the link `a → b-c` (key `a-b-c`, no longer visible) survives
while link `a → b` is visible, because the sweep rebuilds its id as `a-b`.
So drawables whose identities are absent from the visible subgraph outlive
the render pass. -/
theorem c3_counterexample :
    ((sweepNodeCache [(nodeCacheKey "a-b" true false "dark", Drawable.mk (some 0) [1] [])]
        ["a"]).1.map Prod.fst = [nodeCacheKey "a-b" true false "dark"] ∧
    (["a"] : List String).contains "a-b" = false) ∧
    ((sweepLinkCache [(linkCacheKey "a" "b-c", Drawable.mk (some 2) [3] [])]
        [linkCacheKey "a" "b"]).1.map Prod.fst = [linkCacheKey "a" "b-c"] ∧
    ([linkCacheKey "a" "b"] : List String).contains (linkCacheKey "a" "b-c") = false) := by
  refine ⟨⟨rfl, by decide⟩, ⟨rfl, by decide⟩⟩

/-- C3 (amended): provided every node-cache key is built from a dash-free
node id and every link-cache key from dash-free endpoint ids, both sweeps
are sound — afterwards every surviving node-cache entry's identity is in
the current visible node-id set and every surviving link-cache entry's key
is in the current visible link-id set, the survivors are exactly the
entries with visible identity, and the resources released are exactly the
full `disposeObject` traversals (geometry, materials, child visuals) of
the removed entries, released before the entries are dropped.  For ids
containing `'-'`, `key.split('-')` truncates the identity and the
guarantee fails in both caches (see the counterexample). -/
theorem c3_amended_sweep_sound (cache lcache : List (String × Drawable))
    (ids linkIds : List String)
    (hkeys : ∀ e ∈ cache, ∃ nid sel high cm,
      e.1 = nodeCacheKey nid sel high cm ∧ '-' ∉ nid.data)
    (hlkeys : ∀ e ∈ lcache, ∃ s t,
      e.1 = linkCacheKey s t ∧ '-' ∉ s.data ∧ '-' ∉ t.data) :
    ((∀ e ∈ (sweepNodeCache cache ids).1, ∃ nid sel high cm,
      e.1 = nodeCacheKey nid sel high cm ∧ nid ∈ ids)
    ∧ (sweepNodeCache cache ids).1 =
        cache.filter (fun e => ids.contains (firstDashGroup e.1))
    ∧ (sweepNodeCache cache ids).2 =
        (cache.filter (fun e => !(ids.contains (firstDashGroup e.1)))).flatMap
          (fun e => disposeObject e.2))
    ∧ ((∀ e ∈ (sweepLinkCache lcache linkIds).1, e.1 ∈ linkIds)
    ∧ (sweepLinkCache lcache linkIds).1 =
        lcache.filter (fun e => linkIds.contains (linkCacheId e.1))
    ∧ (sweepLinkCache lcache linkIds).2 =
        (lcache.filter (fun e => !(linkIds.contains (linkCacheId e.1)))).flatMap
          (fun e => disposeObject e.2)) := by
  obtain ⟨h1, h2⟩ := sweepNodeCache_eq cache ids
  obtain ⟨g1, g2⟩ := sweepLinkCache_eq lcache linkIds
  refine ⟨⟨?_, h1, h2⟩, ⟨?_, g1, g2⟩⟩
  · intro e he
    rw [h1] at he
    obtain ⟨hec, hev⟩ := List.mem_filter.mp he
    obtain ⟨nid, sel, high, cm, hkey, hnd⟩ := hkeys e hec
    refine ⟨nid, sel, high, cm, hkey, ?_⟩
    rw [hkey, firstDashGroup_nodeCacheKey nid sel high cm hnd] at hev
    simpa using hev
  · intro e he
    rw [g1] at he
    obtain ⟨hec, hev⟩ := List.mem_filter.mp he
    obtain ⟨s, t, hkey, hs, ht⟩ := hlkeys e hec
    rw [hkey, linkCacheId_of_key s t hs ht] at hev
    rw [hkey]
    simpa using hev

/-- Witness for C3 (amended): a two-entry node cache with dash-free ids
`a`, `b` and visible set `[a]` keeps exactly the `a` entry and disposes
the `b` drawable's geometry and material; a two-entry link cache with
keys `a-b`, `c-d` and visible link set `[a-b]` keeps exactly the `a-b`
entry. -/
theorem c3_amended_witness :
    ((∀ e ∈ (sweepNodeCache
        [(nodeCacheKey "a" false false "dark", Drawable.mk (some 0) [1] []),
         (nodeCacheKey "b" false false "dark", Drawable.mk (some 2) [3] [])]
        ["a"]).1, ∃ nid sel high cm,
      e.1 = nodeCacheKey nid sel high cm ∧ nid ∈ ["a"])
    ∧ (sweepNodeCache
        [(nodeCacheKey "a" false false "dark", Drawable.mk (some 0) [1] []),
         (nodeCacheKey "b" false false "dark", Drawable.mk (some 2) [3] [])]
        ["a"]).1 =
      [(nodeCacheKey "a" false false "dark", Drawable.mk (some 0) [1] []),
       (nodeCacheKey "b" false false "dark", Drawable.mk (some 2) [3] [])].filter
        (fun e => (["a"] : List String).contains (firstDashGroup e.1))
    ∧ (sweepNodeCache
        [(nodeCacheKey "a" false false "dark", Drawable.mk (some 0) [1] []),
         (nodeCacheKey "b" false false "dark", Drawable.mk (some 2) [3] [])]
        ["a"]).2 =
      ([(nodeCacheKey "a" false false "dark", Drawable.mk (some 0) [1] []),
        (nodeCacheKey "b" false false "dark", Drawable.mk (some 2) [3] [])].filter
        (fun e => !((["a"] : List String).contains (firstDashGroup e.1)))).flatMap
        (fun e => disposeObject e.2))
    ∧ ((∀ e ∈ (sweepLinkCache
        [(linkCacheKey "a" "b", Drawable.mk (some 4) [5] []),
         (linkCacheKey "c" "d", Drawable.mk (some 6) [7] [])]
        [linkCacheKey "a" "b"]).1, e.1 ∈ [linkCacheKey "a" "b"])
    ∧ (sweepLinkCache
        [(linkCacheKey "a" "b", Drawable.mk (some 4) [5] []),
         (linkCacheKey "c" "d", Drawable.mk (some 6) [7] [])]
        [linkCacheKey "a" "b"]).1 =
      [(linkCacheKey "a" "b", Drawable.mk (some 4) [5] []),
       (linkCacheKey "c" "d", Drawable.mk (some 6) [7] [])].filter
        (fun e => ([linkCacheKey "a" "b"] : List String).contains (linkCacheId e.1))
    ∧ (sweepLinkCache
        [(linkCacheKey "a" "b", Drawable.mk (some 4) [5] []),
         (linkCacheKey "c" "d", Drawable.mk (some 6) [7] [])]
        [linkCacheKey "a" "b"]).2 =
      ([(linkCacheKey "a" "b", Drawable.mk (some 4) [5] []),
        (linkCacheKey "c" "d", Drawable.mk (some 6) [7] [])].filter
        (fun e => !(([linkCacheKey "a" "b"] : List String).contains (linkCacheId e.1)))).flatMap
        (fun e => disposeObject e.2)) :=
  c3_amended_sweep_sound
    [(nodeCacheKey "a" false false "dark", Drawable.mk (some 0) [1] []),
     (nodeCacheKey "b" false false "dark", Drawable.mk (some 2) [3] [])]
    [(linkCacheKey "a" "b", Drawable.mk (some 4) [5] []),
     (linkCacheKey "c" "d", Drawable.mk (some 6) [7] [])]
    ["a"] [linkCacheKey "a" "b"]
    (by
      intro e he
      rcases List.mem_cons.mp he with h | h
      · exact ⟨"a", false, false, "dark", by rw [h], by decide⟩
      · rcases List.mem_cons.mp h with h2 | h2
        · exact ⟨"b", false, false, "dark", by rw [h2], by decide⟩
        · cases h2)
    (by
      intro e he
      rcases List.mem_cons.mp he with h | h
      · exact ⟨"a", "b", by rw [h], by decide, by decide⟩
      · rcases List.mem_cons.mp h with h2 | h2
        · exact ⟨"c", "d", by rw [h2], by decide, by decide⟩
        · cases h2)

theorem jitterScan_noop (rs : ℕ → ℚ) (k : ℕ) (n : PhysNode) (os : List PhysNode)
    (h : ∀ o ∈ os, ¬(n.x = o.x ∧ n.y = o.y)) :
    jitterScan rs k n os = (n, k) := by
  induction os with
  | nil => rfl
  | cons o t ih =>
    rw [jitterScan, if_neg (h o (List.mem_cons_self o t))]
    exact ih (fun q hq => h q (List.mem_cons_of_mem o hq))

theorem handlerAux_map_clamp (rs : ℕ → ℚ) (w h : ℚ) :
    ∀ (todo done : List PhysNode) (k : ℕ),
      (∀ a ∈ done, ∀ b ∈ todo,
        ¬((clampNode w h b).x = a.x ∧ (clampNode w h b).y = a.y)) →
      List.Pairwise (fun a b =>
        ¬((clampNode w h a).x = (clampNode w h b).x ∧
          (clampNode w h a).y = (clampNode w h b).y) ∧
        ¬((clampNode w h a).x = b.x ∧ (clampNode w h a).y = b.y)) todo →
      handlerAux rs w h k done todo = done ++ todo.map (clampNode w h)
  | [], done, k, _, _ => by simp [handlerAux]
  | n :: t, done, k, hdone, hp => by
    rw [handlerAux]
    have hpc := List.pairwise_cons.mp hp
    have hnj : ∀ o ∈ done ++ t,
        ¬((clampNode w h n).x = o.x ∧ (clampNode w h n).y = o.y) := by
      intro o ho
      rcases List.mem_append.mp ho with h1 | h1
      · exact hdone o h1 n (List.mem_cons_self n t)
      · exact (hpc.1 o h1).2
    rw [jitterScan_noop rs k _ _ hnj]
    have hdone2 : ∀ a ∈ done ++ [clampNode w h n], ∀ b ∈ t,
        ¬((clampNode w h b).x = a.x ∧ (clampNode w h b).y = a.y) := by
      intro a ha b hb
      rcases List.mem_append.mp ha with h1 | h1
      · exact hdone a h1 b (List.mem_cons_of_mem n hb)
      · have := (hpc.1 b hb).1
        rcases List.mem_singleton.mp h1 with rfl
        intro ⟨e1, e2⟩
        exact this ⟨e1.symm, e2.symm⟩
    rw [handlerAux_map_clamp rs w h t (done ++ [clampNode w h n]) k hdone2 hpc.2]
    simp

theorem clampNode_fixed (w h : ℚ) (n : PhysNode) (hx1 : 10 ≤ n.x)
    (hx2 : n.x ≤ w - 10) (hy1 : 10 ≤ n.y) (hy2 : n.y ≤ h - 10) :
    clampNode w h n = n := by
  have hx0 : n.x ≠ 0 := by intro e; rw [e] at hx1; norm_num at hx1
  have hy0 : n.y ≠ 0 := by intro e; rw [e] at hy1; norm_num at hy1
  rw [clampNode, if_pos hx0, if_pos hy0, min_eq_right hx2, max_eq_right hx1,
    min_eq_right hy2, max_eq_right hy1]

theorem clampNode_mem_bounds (w h : ℚ) (hw : 20 ≤ w) (hh : 20 ≤ h) (n : PhysNode)
    (hx : n.x ≠ 0) (hy : n.y ≠ 0) :
    10 ≤ (clampNode w h n).x ∧ (clampNode w h n).x ≤ w - 10 ∧
    10 ≤ (clampNode w h n).y ∧ (clampNode w h n).y ≤ h - 10 := by
  rw [clampNode, if_pos hx, if_pos hy]
  refine ⟨le_max_left _ _, max_le (by linarith) (min_le_left _ _),
    le_max_left _ _, max_le (by linarith) (min_le_left _ _)⟩

/-- Counterexample for C6, in two parts.  Truthiness hole: the clamp is
guarded by `if (node.x)`, so a node sitting exactly at coordinate 0 is
never clamped — after a tick whose handler body runs (tick count 0) it
still has `x = 0`, outside the claimed band `[10, width - 10]`.  Throttle
hole: on an odd tick count with 201 visible nodes the handler returns
before clamping, so a node at `x = 1000` stays at 1000 in an 800-wide
viewport. -/
theorem c6_counterexample :
    ((tickHandler (fun _ => 1/2) 0 800 600
        [{ x := 0, y := 300, vx := 0, vy := 0 }]).map (fun n => (n.x, n.y)) =
      [((0 : ℚ), (300 : ℚ))] ∧
    ¬((10 : ℚ) ≤ 0)) ∧
    (tickHandler (fun _ => 1/2) 1 800 600
        (List.replicate 201 { x := 1000, y := 300, vx := 0, vy := 0 }) =
      List.replicate 201 { x := 1000, y := 300, vx := 0, vy := 0 } ∧
    ¬((1000 : ℚ) ≤ 800 - 10)) := by
  refine ⟨⟨?_, by norm_num⟩, ⟨?_, by norm_num⟩⟩
  · rw [tickHandler, if_neg (by decide), handlerPass, handlerAux, handlerAux]
    norm_num [jitterScan, clampNode]
  · rw [tickHandler, if_pos ⟨by decide, by rw [List.length_replicate]; omega⟩]

/-- C6 (amended): on every tick whose handler body runs — the tick count
is even or at most 200 nodes are visible; on other ticks the handler's
throttle returns before constraining anything — the handler clamps every
node whose coordinates are both non-zero (JavaScript truthiness skips a
zero coordinate) into `[10, width - 10] × [10, height - 10]`, provided the
exact-overlap jitter never fires (clamped positions pairwise distinct and
distinct from the not-yet-clamped positions of later nodes); under those
conditions no node lies outside the viewport after the tick. -/
theorem c6_amended_clamp (rs : ℕ → ℚ) (tickCount : ℕ) (w h : ℚ)
    (nodes : List PhysNode)
    (hrun : tickCount % 2 = 0 ∨ nodes.length ≤ 200)
    (hw : 20 ≤ w) (hh : 20 ≤ h)
    (hnz : ∀ n ∈ nodes, n.x ≠ 0 ∧ n.y ≠ 0)
    (hdist : List.Pairwise (fun a b =>
      ¬((clampNode w h a).x = (clampNode w h b).x ∧
        (clampNode w h a).y = (clampNode w h b).y) ∧
      ¬((clampNode w h a).x = b.x ∧ (clampNode w h a).y = b.y)) nodes) :
    ∀ n ∈ tickHandler rs tickCount w h nodes,
      10 ≤ n.x ∧ n.x ≤ w - 10 ∧ 10 ≤ n.y ∧ n.y ≤ h - 10 := by
  have hcond : ¬(tickCount % 2 ≠ 0 ∧ 200 < nodes.length) := by
    rcases hrun with h1 | h1
    · exact fun c => c.1 h1
    · exact fun c => absurd c.2 (by omega)
  rw [tickHandler, if_neg hcond, handlerPass,
    handlerAux_map_clamp rs w h nodes [] 0 (by simp) hdist]
  intro n hn
  rw [List.nil_append] at hn
  obtain ⟨m, hm, rfl⟩ := List.mem_map.mp hn
  exact clampNode_mem_bounds w h hw hh m (hnz m hm).1 (hnz m hm).2

theorem integrateNode_pinned (a : ℚ × ℚ) (n : PhysNode) (px py : ℚ)
    (hx : n.fx = some px) (hy : n.fy = some py) :
    integrateNode a n = { n with x := px, y := py, vx := 0, vy := 0 } := by
  simp [integrateNode, hx, hy]

theorem zipWith_integrate_all_pinned (forces : List (ℚ × ℚ)) (nodes : List PhysNode)
    (hlen : forces.length = nodes.length)
    (hpin : ∀ n ∈ nodes, n.fx.isSome ∧ n.fy.isSome) :
    List.zipWith integrateNode forces nodes =
      nodes.map (fun n =>
        { n with x := n.fx.getD 0, y := n.fy.getD 0, vx := 0, vy := 0 }) := by
  induction nodes generalizing forces with
  | nil =>
    cases forces with
    | nil => rfl
    | cons a t => simp at hlen
  | cons n t ih =>
    cases forces with
    | nil => simp at hlen
    | cons a fs =>
      obtain ⟨hx, hy⟩ := hpin n (List.mem_cons_self n t)
      obtain ⟨px, hpx⟩ := Option.isSome_iff_exists.mp hx
      obtain ⟨py, hpy⟩ := Option.isSome_iff_exists.mp hy
      rw [List.zipWith_cons_cons, List.map_cons,
        integrateNode_pinned a n px py hpx hpy,
        ih fs (by simpa using hlen) (fun q hq => hpin q (List.mem_cons_of_mem n hq)),
        hpx, hpy]
      simp

/-- Counterexample for C4: a node pinned at `(1000, 300)` with viewport
`800 × 600` — the tick handler clamps the pinned x-coordinate back to
`790 = 800 - 10`, so after the tick the node's position is not the pin
value. -/
theorem c4_counterexample :
    (tick2D (fun _ => 1/2) 800 600 [(0, 0)]
        [{ x := 1000, y := 300, vx := 0, vy := 0, fx := some 1000, fy := some 300 }]).map
      (fun n => (n.x, n.y)) = [((790 : ℚ), (300 : ℚ))] ∧
    ((790 : ℚ), (300 : ℚ)) ≠ ((1000 : ℚ), (300 : ℚ)) := by
  constructor
  · rw [tick2D, List.zipWith_cons_cons, List.zipWith_nil_right, handlerPass,
      handlerAux, handlerAux]
    norm_num [jitterScan, clampNode, integrateNode]
  · norm_num

/-- C4 (amended): when every node is pinned, with pins inside the viewport
clamp band `[10, extent - 10]` and pairwise distinct, every node's
position after a full tick (d3 integration followed by the view's tick
handler) equals exactly its pin value, whatever per-node force
contributions are applied.  For a pin outside the band the handler's
viewport clamp overrides the pin (see the counterexample), and
exactly-coincident pins would be jittered apart. -/
theorem c4_amended_pin_exact (rs : ℕ → ℚ) (w h : ℚ) (forces : List (ℚ × ℚ))
    (nodes : List PhysNode)
    (hlen : forces.length = nodes.length)
    (hpin : ∀ n ∈ nodes, n.fx.isSome ∧ n.fy.isSome ∧
      10 ≤ n.fx.getD 0 ∧ n.fx.getD 0 ≤ w - 10 ∧
      10 ≤ n.fy.getD 0 ∧ n.fy.getD 0 ≤ h - 10)
    (hdist : List.Pairwise (fun a b => ¬(a.fx = b.fx ∧ a.fy = b.fy)) nodes) :
    (tick2D rs w h forces nodes).map (fun n => (n.x, n.y)) =
      nodes.map (fun n => (n.fx.getD 0, n.fy.getD 0)) := by
  rw [tick2D, zipWith_integrate_all_pinned forces nodes hlen
      (fun n hn => ⟨(hpin n hn).1, (hpin n hn).2.1⟩)]
  rw [handlerPass, handlerAux_map_clamp rs w h _ [] 0 (by simp) ?hp]
  case hp =>
    rw [List.pairwise_map]
    refine hdist.imp_of_mem ?_
    intro a b ha hb hr
    obtain ⟨hxa, hya, h1a, h2a, h3a, h4a⟩ := hpin a ha
    obtain ⟨hxb, hyb, h1b, h2b, h3b, h4b⟩ := hpin b hb
    obtain ⟨pa, hpa⟩ := Option.isSome_iff_exists.mp hxa
    obtain ⟨qa, hqa⟩ := Option.isSome_iff_exists.mp hya
    obtain ⟨pb, hpb⟩ := Option.isSome_iff_exists.mp hxb
    obtain ⟨qb, hqb⟩ := Option.isSome_iff_exists.mp hyb
    have hca : clampNode w h
        { a with x := a.fx.getD 0, y := a.fy.getD 0, vx := 0, vy := 0 } =
        { a with x := a.fx.getD 0, y := a.fy.getD 0, vx := 0, vy := 0 } :=
      clampNode_fixed w h _ h1a h2a h3a h4a
    have hcb : clampNode w h
        { b with x := b.fx.getD 0, y := b.fy.getD 0, vx := 0, vy := 0 } =
        { b with x := b.fx.getD 0, y := b.fy.getD 0, vx := 0, vy := 0 } :=
      clampNode_fixed w h _ h1b h2b h3b h4b
    have hne : ¬(a.fx.getD 0 = b.fx.getD 0 ∧ a.fy.getD 0 = b.fy.getD 0) := by
      intro ⟨e1, e2⟩
      apply hr
      rw [hpa, hpb] at e1
      rw [hqa, hqb] at e2
      simp only [Option.getD_some] at e1 e2
      rw [hpa, hpb, hqa, hqb, e1, e2]
      exact ⟨rfl, rfl⟩
    rw [hca, hcb]
    exact ⟨fun ⟨e1, e2⟩ => hne ⟨e1, e2⟩, fun ⟨e1, e2⟩ => hne ⟨e1, e2⟩⟩
  have hfix : ∀ m ∈ nodes.map (fun n =>
      { n with x := n.fx.getD 0, y := n.fy.getD 0, vx := 0, vy := 0 }),
      clampNode w h m = m := by
    intro m hm
    obtain ⟨q, hq, rfl⟩ := List.mem_map.mp hm
    obtain ⟨_, _, h1, h2, h3, h4⟩ := hpin q hq
    exact clampNode_fixed w h _ h1 h2 h3 h4
  rw [List.nil_append, List.map_congr_left hfix]
  simp

theorem c4_pins_in_bounds :
    ∀ n ∈ [({ x := 50, y := 50, vx := 1, vy := 1, fx := some 100, fy := some 200 } : PhysNode),
           { x := 60, y := 60, vx := 2, vy := 2, fx := some 300, fy := some 400 }],
      n.fx.isSome ∧ n.fy.isSome ∧
      10 ≤ n.fx.getD 0 ∧ n.fx.getD 0 ≤ (800 : ℚ) - 10 ∧
      10 ≤ n.fy.getD 0 ∧ n.fy.getD 0 ≤ (600 : ℚ) - 10 := by
  intro n hn
  rcases List.mem_cons.mp hn with rfl | hn
  · exact ⟨rfl, rfl, by norm_num, by norm_num, by norm_num, by norm_num⟩
  · rcases List.mem_cons.mp hn with rfl | hn
    · exact ⟨rfl, rfl, by norm_num, by norm_num, by norm_num, by norm_num⟩
    · cases hn

/-- Witness for C4 (amended): two nodes pinned at `(100, 200)` and
`(300, 400)` inside an `800 × 600` viewport land exactly on their pins
after a full tick, despite non-zero force contributions. -/
theorem c4_amended_witness :
    (tick2D (fun _ => 0) 800 600 [((3 : ℚ), (4 : ℚ)), (5, 6)]
        [{ x := 50, y := 50, vx := 1, vy := 1, fx := some 100, fy := some 200 },
         { x := 60, y := 60, vx := 2, vy := 2, fx := some 300, fy := some 400 }]).map
      (fun n => (n.x, n.y)) = [((100 : ℚ), (200 : ℚ)), (300, 400)] :=
  (c4_amended_pin_exact (fun _ => 0) 800 600 [((3 : ℚ), (4 : ℚ)), (5, 6)]
    [{ x := 50, y := 50, vx := 1, vy := 1, fx := some 100, fy := some 200 },
     { x := 60, y := 60, vx := 2, vy := 2, fx := some 300, fy := some 400 }]
    rfl c4_pins_in_bounds (by decide)).trans (by decide)

theorem c6_nodes_distinct :
    List.Pairwise (fun a b =>
      ¬((clampNode 800 600 a).x = (clampNode 800 600 b).x ∧
        (clampNode 800 600 a).y = (clampNode 800 600 b).y) ∧
      ¬((clampNode 800 600 a).x = b.x ∧ (clampNode 800 600 a).y = b.y))
      [({ x := 100, y := 100, vx := 0, vy := 0 } : PhysNode),
       { x := 200, y := 200, vx := 0, vy := 0 }] := by
  have h1 : clampNode 800 600 ({ x := 100, y := 100, vx := 0, vy := 0 } : PhysNode) =
      { x := 100, y := 100, vx := 0, vy := 0 } :=
    clampNode_fixed 800 600 _ (by norm_num) (by norm_num) (by norm_num) (by norm_num)
  have h2 : clampNode 800 600 ({ x := 200, y := 200, vx := 0, vy := 0 } : PhysNode) =
      { x := 200, y := 200, vx := 0, vy := 0 } :=
    clampNode_fixed 800 600 _ (by norm_num) (by norm_num) (by norm_num) (by norm_num)
  refine List.pairwise_cons.mpr ⟨?_, List.pairwise_singleton _ _⟩
  intro b hb
  rcases List.mem_singleton.mp hb with rfl
  rw [h1, h2]
  norm_num

theorem c6_tick_two_interior :
    tickHandler (fun _ => 0) 0 800 600
      [({ x := 100, y := 100, vx := 0, vy := 0 } : PhysNode),
       { x := 200, y := 200, vx := 0, vy := 0 }] =
      [({ x := 100, y := 100, vx := 0, vy := 0 } : PhysNode),
       { x := 200, y := 200, vx := 0, vy := 0 }] := by
  rw [tickHandler, if_neg (by decide), handlerPass,
    handlerAux_map_clamp (fun _ => 0) 800 600 _ [] 0 (by simp) c6_nodes_distinct,
    List.nil_append, List.map_cons, List.map_cons, List.map_nil,
    clampNode_fixed 800 600 _ (by norm_num) (by norm_num) (by norm_num) (by norm_num),
    clampNode_fixed 800 600 _ (by norm_num) (by norm_num) (by norm_num) (by norm_num)]

/-- Witness for C6 (amended): the node at `(100, 100)` of a concrete
two-node tick (tick count 0, so the handler body runs) ends inside the
`800 × 600` viewport band. -/
theorem c6_amended_witness :
    10 ≤ ({ x := 100, y := 100, vx := 0, vy := 0 } : PhysNode).x ∧
    ({ x := 100, y := 100, vx := 0, vy := 0 } : PhysNode).x ≤ 800 - 10 ∧
    10 ≤ ({ x := 100, y := 100, vx := 0, vy := 0 } : PhysNode).y ∧
    ({ x := 100, y := 100, vx := 0, vy := 0 } : PhysNode).y ≤ 600 - 10 :=
  c6_amended_clamp (fun _ => 0) 0 800 600
    [({ x := 100, y := 100, vx := 0, vy := 0 } : PhysNode),
     { x := 200, y := 200, vx := 0, vy := 0 }]
    (by decide) (by decide) (by decide) (by decide) c6_nodes_distinct
    { x := 100, y := 100, vx := 0, vy := 0 }
    (by rw [c6_tick_two_interior]; exact List.mem_cons_self _ _)

theorem coolStep_le_self (t a : ℚ) (h : t ≤ a) : coolStep t a ≤ a := by
  rw [coolStep, alphaDecay2D]
  linarith

theorem coolStep_ge_target (t a : ℚ) (h : t ≤ a) : t ≤ coolStep t a := by
  rw [coolStep, alphaDecay2D]
  linarith

theorem alphaSeq_phaseA (n1 n2 n3 : ℕ) (h13 : n1 < n3) :
    ∀ k, k < n1 → alphaSeq n1 n2 n3 k = (3/10) * ((497 : ℚ)/500)^k := by
  intro k
  induction k with
  | zero =>
    intro _
    rw [alphaSeq]
    norm_num
  | succ k ih =>
    intro hk
    have hk' : k < n1 := Nat.lt_of_succ_lt hk
    rw [alphaSeq, if_neg (by omega), if_neg (by omega), coolTarget, if_pos hk',
      ih hk', coolStep, alphaDecay2D]
    ring

theorem alphaSeq_invariant (n1 n2 n3 : ℕ) (h1 : 0 < n1) (h12 : n1 < n2)
    (h23 : n2 < n3) :
    ∀ k, (n1 ≤ k → k < n2 → 1/20 ≤ alphaSeq n1 n2 n3 k)
       ∧ (n2 ≤ k → k < n3 → 1/100 ≤ alphaSeq n1 n2 n3 k)
       ∧ (n3 ≤ k → 0 ≤ alphaSeq n1 n2 n3 k) := by
  intro k
  induction k with
  | zero =>
    exact ⟨fun h _ => absurd h (by omega), fun h _ => absurd h (by omega),
      fun h => absurd h (by omega)⟩
  | succ k ih =>
    refine ⟨?_, ?_, ?_⟩
    · intro hge hlt
      by_cases he : k + 1 = n1
      · rw [alphaSeq, if_pos he]
        norm_num
      · rw [alphaSeq, if_neg he, if_neg (by omega), coolTarget,
          if_neg (by omega), if_pos (by omega)]
        exact coolStep_ge_target _ _ (ih.1 (by omega) (by omega))
    · intro hge hlt
      by_cases he : k + 1 = n2
      · rw [alphaSeq, if_neg (by omega), if_neg (by omega), coolTarget,
          if_neg (by omega), if_pos (by omega)]
        have := coolStep_ge_target _ _ (ih.1 (by omega) (by omega))
        linarith
      · rw [alphaSeq, if_neg (by omega), if_neg (by omega), coolTarget,
          if_neg (by omega), if_neg (by omega), if_pos (by omega)]
        exact coolStep_ge_target _ _ (ih.2.1 (by omega) (by omega))
    · intro hge
      by_cases he : k + 1 = n3
      · rw [alphaSeq, if_neg (by omega), if_pos he]
        norm_num
      · rw [alphaSeq, if_neg (by omega), if_neg he, coolTarget,
          if_neg (by omega), if_neg (by omega), if_neg (by omega)]
        exact coolStep_ge_target 0 _ (ih.2.2 (by omega))

theorem alphaSeq_after_n3 (n1 n2 n3 : ℕ) (h1 : 0 < n1) (h12 : n1 < n2)
    (h23 : n2 < n3) :
    ∀ m, alphaSeq n1 n2 n3 (n3 + m) = (1/200) * ((497 : ℚ)/500)^m := by
  intro m
  induction m with
  | zero =>
    obtain ⟨j, rfl⟩ : ∃ j, n3 = j + 1 := ⟨n3 - 1, by omega⟩
    rw [Nat.add_zero, alphaSeq, if_neg (by omega), if_pos rfl]
    norm_num
  | succ m ih =>
    rw [show n3 + (m + 1) = (n3 + m) + 1 from rfl, alphaSeq, if_neg (by omega),
      if_neg (by omega), coolTarget, if_neg (by omega), if_neg (by omega),
      if_neg (by omega), ih, coolStep, alphaDecay2D]
    ring

/-- C7: for the 2D simulation's parameters (`alpha(0.3)`,
`alphaDecay(0.006)`, `alphaMin(0.0005)`) and the three-phase cooling
schedule firing at tick boundaries `n1 < n2 < n3`, alpha is non-increasing
from each tick to the next, and it falls below the `alphaMin` stop
threshold after finitely many ticks — at which point d3's internal timer
stops and no further tick is scheduled (`simSettled`).  The hypothesis
`hreset` says the 1-second timeout fires while alpha is still at least the
0.1 it resets alpha to, which holds at nominal frame rates. -/
theorem c7_alpha_settles (n1 n2 n3 : ℕ) (h1 : 0 < n1) (h12 : n1 < n2)
    (h23 : n2 < n3)
    (hreset : 1/10 ≤ (3/10) * ((497 : ℚ)/500)^(n1 - 1)) :
    (∀ k, alphaSeq n1 n2 n3 (k + 1) ≤ alphaSeq n1 n2 n3 k) ∧
    ∃ N, simSettled (alphaSeq n1 n2 n3 N) := by
  constructor
  · intro k
    by_cases he1 : k + 1 = n1
    · rw [alphaSeq, if_pos he1,
        alphaSeq_phaseA n1 n2 n3 (by omega) k (by omega),
        show k = n1 - 1 from by omega]
      exact hreset
    · by_cases he3 : k + 1 = n3
      · rw [alphaSeq, if_neg he1, if_pos he3]
        have h2 := (alphaSeq_invariant n1 n2 n3 h1 h12 h23 k).2.1
          (by omega) (by omega)
        linarith
      · rw [alphaSeq, if_neg he1, if_neg he3]
        apply coolStep_le_self
        rcases Nat.lt_or_ge k n1 with hp | hp
        · rw [coolTarget, if_pos hp, alphaSeq_phaseA n1 n2 n3 (by omega) k hp]
          positivity
        · rcases Nat.lt_or_ge k n2 with hq | hq
          · rw [coolTarget, if_neg (by omega), if_pos hq]
            exact (alphaSeq_invariant n1 n2 n3 h1 h12 h23 k).1 hp hq
          · rcases Nat.lt_or_ge k n3 with hr | hr
            · rw [coolTarget, if_neg (by omega), if_neg (by omega), if_pos hr]
              exact (alphaSeq_invariant n1 n2 n3 h1 h12 h23 k).2.1 hq hr
            · rw [coolTarget, if_neg (by omega), if_neg (by omega),
                if_neg (by omega)]
              exact (alphaSeq_invariant n1 n2 n3 h1 h12 h23 k).2.2 hr
  · obtain ⟨m, hm⟩ := exists_pow_lt_of_lt_one
      (show (0 : ℚ) < 1/10 by norm_num) (show (497 : ℚ)/500 < 1 by norm_num)
    refine ⟨n3 + m, ?_⟩
    rw [simSettled, alphaMin2D, alphaSeq_after_n3 n1 n2 n3 h1 h12 h23 m]
    linarith

theorem c7_first_reset_ok : (1 : ℚ)/10 ≤ (3/10) * ((497 : ℚ)/500)^(1 - 1) := by
  norm_num

/-- Witness for C7: with the cooling boundaries at ticks 1, 2 and 3, alpha
is non-increasing and settles below the stop threshold. -/
theorem c7_witness :
    (∀ k, alphaSeq 1 2 3 (k + 1) ≤ alphaSeq 1 2 3 k) ∧
    ∃ N, simSettled (alphaSeq 1 2 3 N) :=
  c7_alpha_settles 1 2 3 (by decide) (by decide) (by decide) c7_first_reset_ok
